import Mathlib

/-!
Shallow embedding of the dad-bot-matrix repository core: the DadBot
responder (DadBot.ts) and the DBController event store (DBController.ts,
the lazy-initializing revision cited by the claims).  JavaScript strings
are modelled as Lean strings, JavaScript arrays as lists, the sqlite3
events table as an optional list of (eventID, responseID) rows (none
models the table not existing yet), and promise rejection as Except.
-/

namespace DadBotMatrix

/-- Decidable equality of Except values, so that concrete runs of the
embedded operations can be checked by evaluation. -/
instance {ε α : Type} [DecidableEq ε] [DecidableEq α] : DecidableEq (Except ε α) := fun x y =>
  match x, y with
  | .ok a, .ok b =>
    if h : a = b then isTrue (by rw [h])
    else isFalse (fun hc => by cases hc; exact h rfl)
  | .error a, .error b =>
    if h : a = b then isTrue (by rw [h])
    else isFalse (fun hc => by cases hc; exact h rfl)
  | .ok _, .error _ => isFalse (fun hc => by cases hc)
  | .error _, .ok _ => isFalse (fun hc => by cases hc)

/-- ASCII apostrophe as a one-character string (code point 39). -/
def apos : String := String.singleton (Char.ofNat 39)

/-- Right single quotation mark, the curly apostrophe (code point 8217). -/
def rsquo : String := String.singleton (Char.ofNat 8217)

/-- The trigger word spelled i-apostrophe-m with the ASCII apostrophe. -/
def iApM : String := "i" ++ apos ++ "m"

/-- The trigger word spelled i-apostrophe-m with the curly apostrophe. -/
def iRsM : String := "i" ++ rsquo ++ "m"

/-- DadBot.triggerWords from DadBot.ts. -/
def triggerWords : List String := ["im", iApM, "imma", iRsM]

/-- The response template of buildResponse and respond in DadBot.ts:
Hi NAME comma I-apostrophe-m Dad period. -/
def dadMessage (name : String) : String :=
  "Hi " ++ name ++ ", I" ++ apos ++ "m Dad."

/-- JavaScript String.prototype.toLowerCase restricted to the character
repertoire this program compares (ASCII letters and the curly apostrophe,
on which the two functions agree): lower-case every character. -/
def jsToLower (s : String) : String := String.mk (s.data.map Char.toLower)

/-- JavaScript String.prototype.split with separator a single space,
on the character list: adjacent separators and boundary separators
produce empty tokens, and the empty input yields one empty token. -/
def splitChars : List Char → List (List Char)
  | [] => [[]]
  | c :: cs =>
    if c = ' ' then [] :: splitChars cs
    else
      match splitChars cs with
      | t :: ts => (c :: t) :: ts
      | [] => [[c]]

/-- JavaScript body.split(. .) with a single-space separator. -/
def jsSplit (s : String) : List String := (splitChars s.data).map String.mk

/-- JavaScript Array.prototype.indexOf: index of the first occurrence of
x, or -1 when absent. -/
def jsIndexOf : List String → String → Int
  | [], _ => -1
  | w :: ws, x =>
    if w = x then 0
    else
      let r := jsIndexOf ws x
      if r = -1 then -1 else r + 1

/-- JavaScript array indexing at a possibly negative index: undefined
(none) out of range. -/
def jsGetElem (l : List String) (i : Int) : Option String :=
  if 0 ≤ i then l.get? i.toNat else none

/-- The for-of loop of DadBot.getName: the first element of the split
body whose lower-cased form is a trigger word, if any. -/
def findTriggerElem : List String → Option String
  | [] => none
  | w :: ws =>
    if triggerWords.contains (jsToLower w) then some w else findTriggerElem ws

/-- DadBot.getName from DadBot.ts.  The loop finds the first element
lower-casing to a trigger word and sets i to split.indexOf(element) + 1.
The guard (i and split[i]) and the inner guard (split[j]) are JavaScript
truthiness tests, so an out-of-range index and an empty-string token are
both treated as absent. -/
def getName (context : String) : String :=
  let split := jsSplit context
  let iOpt : Option Int :=
    match findTriggerElem split with
    | some el => some (jsIndexOf split el + 1)
    | none => none
  match iOpt with
  | none => ""
  | some i =>
    if i = 0 then ""
    else
      match jsGetElem split i with
      | none => ""
      | some si =>
        if si = "" then ""
        else
          match jsGetElem split (i + 1) with
          | none => si
          | some sj => if sj = "" then si else si ++ " " ++ sj

/-- Index of the first token whose lower-cased form is a trigger word. -/
def firstTriggerIdx : List String → Option Nat
  | [] => none
  | w :: ws =>
    if triggerWords.contains (jsToLower w) then some 0
    else (firstTriggerIdx ws).map (· + 1)

/-- ExtractName exactly as the claim words it: tokenize on single spaces,
find the first trigger token, let i be the next position; the result is
tokens[i] when that position exists, with tokens[i+1] appended after a
single space when it exists; empty when no trigger occurs or the trigger
is the last token. -/
def getNameSpec (body : String) : String :=
  let tokens := jsSplit body
  match firstTriggerIdx tokens with
  | none => ""
  | some k =>
    match tokens.get? (k + 1) with
    | none => ""
    | some t1 =>
      match tokens.get? (k + 2) with
      | none => t1
      | some t2 => t1 ++ " " ++ t2

/-- ExtractName as the counterexample forces it to be amended: tokens[i]
is used only when it is non-empty, and tokens[i+1] is appended only when
it is non-empty (empty tokens arise from consecutive spaces and are
treated as absent by the truthiness tests in the code). -/
def getNameAmendedSpec (body : String) : String :=
  let tokens := jsSplit body
  match firstTriggerIdx tokens with
  | none => ""
  | some k =>
    match tokens.get? (k + 1) with
    | none => ""
    | some t1 =>
      if t1 = "" then ""
      else
        match tokens.get? (k + 2) with
        | none => t1
        | some t2 => if t2 = "" then t1 else t1 ++ " " ++ t2

/-- The wall-clock readings getDate, getHours and getMinutes of a Date.
The millisecond-to-calendar decoding of the JavaScript Date object is
abstracted: events carry their decoded readings. -/
structure WallClock where
  date : Nat
  hours : Nat
  minutes : Nat
deriving DecidableEq, Repr

/-- DadBot.isRelevant from DadBot.ts: the message is relevant exactly
when its date, hour and minute readings all equal those of now. -/
def isRelevant (now msg : WallClock) : Bool :=
  if now.date ≠ msg.date then false
  else if now.hours ≠ msg.hours then false
  else if now.minutes ≠ msg.minutes then false
  else true

/-- An inbound Matrix room-message event, restricted to the fields the
program reads.  body empty models a missing or empty body (both falsy);
newContent carries the m.new_content payload body when the event is an
edit; relatesTo carries m.relates_to.event_id when present. -/
structure RoomEvent where
  sender : String
  body : String
  msgtype : String
  newContent : Option String
  relatesTo : Option String
  eventId : String
  originTs : WallClock
deriving DecidableEq, Repr

/-- DadBot.isValidMessage from DadBot.ts: requires a truthy body, kind
m.text, a sender other than the bot itself, a trigger word among the
lower-cased space-split tokens, and a relevant timestamp. -/
def isValidMessage (now : WallClock) (userId : String) (e : RoomEvent) : Bool :=
  if e.body = "" then false
  else
    let split := jsSplit (jsToLower e.body)
    ((e.msgtype == "m.text") && !(userId == e.sender))
      && split.any (fun w => triggerWords.contains w)
      && isRelevant now e.originTs

/-- Validate exactly as the claim words it: the four conditions of the
spec (non-empty body, plain-text kind, non-self sender, a trigger token
in the lower-cased space-split body) and nothing else. -/
def specValidMessage (userId : String) (e : RoomEvent) : Bool :=
  !(e.body == "") && (e.msgtype == "m.text") && !(userId == e.sender)
    && (jsSplit (jsToLower e.body)).any (fun w => triggerWords.contains w)

/-- Errors surfaced by the sqlite3 layer in DBController.ts: a primary
key constraint violation on INSERT, CREATE TABLE on an existing table,
and a query against a table that does not exist. -/
inductive StorageError where
  | constraintViolation : StorageError
  | tableAlreadyExists : StorageError
  | noSuchTable : StorageError
deriving DecidableEq, Repr

/-- The DBController state: the isReady flag and the events table, where
none models the table not existing in the database file and the rows are
(eventID, responseID) pairs in insertion order. -/
structure DBState where
  isReady : Bool
  table : Option (List (String × String))
deriving DecidableEq, Repr

/-- The correlation records currently stored: the rows of the events
table, or no rows when the table does not exist yet. -/
def records (s : DBState) : List (String × String) := s.table.getD []

/-- Reachable DBController states never have the ready flag set while
the events table is missing (start creates the table before setting the
flag). -/
def wfState (s : DBState) : Bool := !s.isReady || s.table.isSome

/-- DBController.checkDB: query sqlite_master for the events table. -/
def checkDB (s : DBState) : Bool := s.table.isSome

/-- DBController.setupDB: CREATE TABLE events, which sqlite3 rejects
when the table already exists. -/
def setupDB (s : DBState) : Except StorageError DBState :=
  match s.table with
  | some _ => .error .tableAlreadyExists
  | none => .ok { s with table := some [] }

/-- DBController.start: create the table when checkDB reports it absent,
then set isReady. -/
def startDB (s : DBState) : Except StorageError DBState :=
  match (if checkDB s then Except.ok s else setupDB s) with
  | .error e => .error e
  | .ok s1 => .ok { s1 with isReady := true }

/-- The lazy-initialization prologue shared by addEventID and getEventID:
when start has not run yet, run it first. -/
def autoStart (s : DBState) : Except StorageError DBState :=
  if s.isReady then .ok s else startDB s

/-- DBController.addEventID: after the lazy-initialization check, INSERT
INTO events VALUES (eventId, responseId); the eventID column is the
primary key, so sqlite3 rejects a duplicate key with a constraint
violation. -/
def addEventID (s : DBState) (eventId responseId : String) :
    Except StorageError DBState :=
  match autoStart s with
  | .error e => .error e
  | .ok s1 =>
    match s1.table with
    | none => .error .noSuchTable
    | some rows =>
      if rows.any (fun p => p.1 == eventId) then .error .constraintViolation
      else .ok { s1 with table := some (rows ++ [(eventId, responseId)]) }

/-- DBController.getEventID: after the lazy-initialization check, SELECT
the responseID of the first row whose eventID matches, resolving with
undefined (none) when there is no such row. -/
def getEventID (s : DBState) (eventId : String) :
    Except StorageError (DBState × Option String) :=
  match autoStart s with
  | .error e => .error e
  | .ok s1 =>
    match s1.table with
    | none => .error .noSuchTable
    | some rows =>
      .ok (s1, (rows.find? (fun p => p.1 == eventId)).map Prod.snd)

/-- Errors that can escape the respond pipeline: a rejected database
promise, or the TypeError thrown by handleEdit when an edit event has no
m.relates_to object to read event_id from. -/
inductive RespondError where
  | storage : StorageError → RespondError
  | typeError : RespondError
deriving DecidableEq, Repr

/-- The content object of an outbound m.room.message event, with the
fields the program writes; absent fields are none.  newContent models
m.new_content as its (msgtype, body) pair and relatesTo models
m.relates_to as its (rel_type, event_id) pair. -/
structure ResponseContent where
  msgtype : Option String
  body : Option String
  newContent : Option (String × String)
  relatesTo : Option (String × String)
deriving DecidableEq, Repr

/-- The ResponseEvent record of DadBot.ts: event type, content and the
ready flag. -/
structure ResponseEvent where
  type : String
  ready : Bool
  content : ResponseContent
deriving DecidableEq, Repr

/-- The initial response value of buildResponse: type m.room.message,
not ready, content holding only msgtype m.notice. -/
def initialResponse : ResponseEvent :=
  { type := "m.room.message", ready := false,
    content := { msgtype := some "m.notice", body := none,
                 newContent := none, relatesTo := none } }

/-- DadBot.handleEdit from DadBot.ts: read the edited event id from
m.relates_to (a TypeError when the field is missing), look up the stored
response id, and when one is found (truthily) build the edit content:
m.new_content with kind m.notice and the new message, an m.replace
relation to the stored response id, and the fallback body which is the
new message prefixed by space-asterisk-space. -/
def handleEdit (s : DBState) (response : ResponseEvent) (newName : String)
    (e : RoomEvent) : Except RespondError (DBState × ResponseEvent) :=
  match e.relatesTo with
  | none => .error .typeError
  | some targetId =>
    match getEventID s targetId with
    | .error err => .error (.storage err)
    | .ok (s1, responseID) =>
      match responseID with
      | some rid =>
        if rid = "" then .ok (s1, response)
        else
          .ok (s1, { response with
            ready := true,
            content := { response.content with
              newContent := some ("m.notice", newName),
              relatesTo := some ("m.replace", rid),
              body := some (" * " ++ newName) } })
      | none => .ok (s1, response)

/-- DadBot.buildResponse from DadBot.ts: extract the name, build the
message, and when the name is non-empty either delegate edit events to
handleEdit or mark a fresh plain-body response ready. -/
def buildResponse (s : DBState) (e : RoomEvent) :
    Except RespondError (DBState × ResponseEvent) :=
  let name := getName e.body
  let message := dadMessage name
  if name.length > 0 then
    match e.newContent with
    | some _ => handleEdit s initialResponse message e
    | none =>
      .ok (s, { initialResponse with
        ready := true,
        content := { initialResponse.content with body := some message } })
  else
    .ok (s, initialResponse)

/-- DadBot.respond from DadBot.ts.  sentId is the event id the Matrix
client returns for the sent event; the network send itself is the
external collaborator and always yields sentId here.  When the response
is ready it is sent, and when the returned id is truthy the pair
(event id of the inbound event, sent id) is written to the store.  The
result carries the new store state and the sent response, if any. -/
def respond (s : DBState) (e : RoomEvent) (sentId : String) :
    Except RespondError (DBState × Option (ResponseEvent × String)) :=
  match buildResponse s e with
  | .error err => .error err
  | .ok (s1, response) =>
    if response.ready then
      if sentId ≠ "" then
        match addEventID s1 e.eventId sentId with
        | .error err => .error (.storage err)
        | .ok s2 => .ok (s2, some (response, sentId))
      else .ok (s1, some (response, sentId))
    else .ok (s1, none)

/-- The operations that touch the event store: the two store methods,
start, and a full responder step (with the id the client returned for
the sent message). -/
inductive StoreOp where
  | putOp : String → String → StoreOp
  | getOp : String → StoreOp
  | startOp : StoreOp
  | respondOp : RoomEvent → String → StoreOp

/-- The store state after one operation; a rejected operation leaves the
stored rows unchanged (sqlite3 does not apply a failed INSERT). -/
def stepOp (s : DBState) (op : StoreOp) : DBState :=
  match op with
  | .putOp e r =>
    match addEventID s e r with
    | .ok s1 => s1
    | .error _ => s
  | .getOp e =>
    match getEventID s e with
    | .ok (s1, _) => s1
    | .error _ => s
  | .startOp =>
    match startDB s with
    | .ok s1 => s1
    | .error _ => s
  | .respondOp e sentId =>
    match respond s e sentId with
    | .ok (s1, _) => s1
    | .error _ => s

/-- The invariant of claim C9: the stored trigger ids are pairwise
distinct (at most one record per trigger id). -/
def storeInv (s : DBState) : Prop := ((records s).map Prod.fst).Nodup

end DadBotMatrix

namespace DadBotMatrix

theorem startDB_eq (s : DBState) : startDB s = .ok ⟨true, some (records s)⟩ := by
  rcases s with ⟨ready, table⟩
  cases table <;> simp [startDB, checkDB, setupDB, records]

theorem addEventID_eq (s : DBState) (e r : String) :
    addEventID s e r =
      if s.isReady && s.table.isNone then .error .noSuchTable
      else if (records s).any (fun p => p.1 == e) then .error .constraintViolation
      else .ok ⟨true, some (records s ++ [(e, r)])⟩ := by
  rcases s with ⟨ready, table⟩
  cases ready <;> cases table <;>
    simp [addEventID, autoStart, startDB, checkDB, setupDB, records]

theorem getEventID_eq (s : DBState) (e : String) :
    getEventID s e =
      if s.isReady && s.table.isNone then .error .noSuchTable
      else .ok (⟨true, some (records s)⟩,
        ((records s).find? (fun p => p.1 == e)).map Prod.snd) := by
  rcases s with ⟨ready, table⟩
  cases ready <;> cases table <;>
    simp [getEventID, autoStart, startDB, checkDB, setupDB, records]

theorem wf_not_blocked {s : DBState} (wf : wfState s = true) :
    (s.isReady && s.table.isNone) = false := by
  rcases s with ⟨ready, table⟩
  cases ready <;> cases table <;> simp_all [wfState]

theorem addEventID_ok_inv {s : DBState} {e r : String} {s1 : DBState}
    (h : addEventID s e r = .ok s1) :
    s1 = ⟨true, some (records s ++ [(e, r)])⟩ ∧
      (records s).any (fun p => p.1 == e) = false := by
  rw [addEventID_eq] at h
  split at h
  · exact absurd h (by simp)
  · split at h
    · exact absurd h (by simp)
    · rename_i h2
      exact ⟨by injection h with h3; exact h3.symm, Bool.eq_false_iff.mpr h2⟩

theorem getEventID_ok_inv {s : DBState} {e : String} {s1 : DBState}
    {v : Option String} (h : getEventID s e = .ok (s1, v)) :
    records s1 = records s ∧
      v = ((records s).find? (fun p => p.1 == e)).map Prod.snd := by
  rw [getEventID_eq] at h
  split at h
  · exact absurd h (by simp)
  · injection h with h1
    injection h1 with h2 h3
    constructor
    · rw [← h2]; rfl
    · exact h3.symm

end DadBotMatrix

namespace DadBotMatrix

theorem mk_data (s : String) : String.mk s.data = s := rfl

theorem length_pos_of_ne_empty {s : String} (h : s ≠ "") : 0 < s.length := by
  rcases s with ⟨l⟩
  cases l with
  | nil => exact absurd rfl h
  | cons c cs => simp [String.length]

theorem splitChars_append_space {as : List Char} (bs : List Char)
    (h : as.contains ' ' = false) :
    splitChars (as ++ ' ' :: bs) = as :: splitChars bs := by
  induction as with
  | nil => simp [splitChars]
  | cons c cs ih =>
    simp only [List.contains_cons, Bool.or_eq_false_iff, beq_eq_false_iff_ne] at h
    have hne : ¬ (c = ' ') := fun hc => h.1 hc.symm
    rw [List.cons_append, splitChars, if_neg hne, ih h.2]

theorem splitChars_no_space {cs : List Char} (h : cs.contains ' ' = false) :
    splitChars cs = [cs] := by
  induction cs with
  | nil => rfl
  | cons c cs ih =>
    simp only [List.contains_cons, Bool.or_eq_false_iff, beq_eq_false_iff_ne] at h
    have hne : ¬ (c = ' ') := fun hc => h.1 hc.symm
    rw [splitChars, if_neg hne, ih h.2]

theorem jsSplit_three {w n : String} (hw : w.data.contains ' ' = false)
    (hn : n.data.contains ' ' = false) :
    jsSplit ("hello " ++ w ++ " " ++ n) = ["hello", w, n] := by
  have hdata : ("hello " ++ w ++ " " ++ n).data
      = "hello".data ++ ' ' :: (w.data ++ ' ' :: n.data) := by
    simp [String.data_append]
  rw [jsSplit, hdata, splitChars_append_space _ (by decide),
    splitChars_append_space _ hw, splitChars_no_space hn]
  simp [mk_data]

end DadBotMatrix

namespace DadBotMatrix

theorem getName_pattern {w n : String}
    (hw : jsToLower w = "im" ∨ jsToLower w = iApM ∨ jsToLower w = "imma")
    (hwsp : w.data.contains ' ' = false) (hn : n ≠ "")
    (hnsp : n.data.contains ' ' = false) :
    getName ("hello " ++ w ++ " " ++ n) = n := by
  have hsplit := jsSplit_three hwsp hnsp
  have hw' : triggerWords.contains (jsToLower w) = true := by
    rcases hw with h | h | h <;> rw [h] <;> decide
  have hne : ¬ ("hello" = w) := by
    intro hEq
    rcases hw with h | h | h <;> rw [← hEq] at h <;> revert h <;> decide
  have hfind : findTriggerElem ["hello", w, n] = some w := by
    rw [findTriggerElem, if_neg (by decide), findTriggerElem, if_pos hw']
  have hidx : jsIndexOf ["hello", w, n] w = 1 := by
    rw [jsIndexOf, if_neg hne]
    simp [jsIndexOf]
  rw [getName]
  simp only [hsplit, hfind, hidx]
  have h2 : jsGetElem ["hello", w, n] (1 + 1) = some n := by
    simp [jsGetElem]
  have h3 : jsGetElem ["hello", w, n] (1 + 1 + 1) = none := by
    simp [jsGetElem]
  simp only [h2, h3]
  simp [hn]

end DadBotMatrix

namespace DadBotMatrix

theorem findTriggerElem_mem {l : List String} {el : String}
    (h : findTriggerElem l = some el) :
    triggerWords.contains (jsToLower el) = true := by
  induction l with
  | nil => exact absurd h (by simp [findTriggerElem])
  | cons w ws ih =>
    rw [findTriggerElem] at h
    split at h
    · injection h with h1; rw [← h1]; assumption
    · exact ih h

theorem findTriggerElem_none {l : List String}
    (h : findTriggerElem l = none) : firstTriggerIdx l = none := by
  induction l with
  | nil => rfl
  | cons w ws ih =>
    rw [findTriggerElem] at h
    rw [firstTriggerIdx]
    split at h
    · exact absurd h (by simp)
    · rename_i hc
      rw [if_neg hc, ih h]
      rfl

theorem jsIndexOf_firstTrigger {l : List String} {el : String}
    (h : findTriggerElem l = some el) :
    ∃ k, firstTriggerIdx l = some k ∧ jsIndexOf l el = (k : Int) := by
  induction l with
  | nil => exact absurd h (by simp [findTriggerElem])
  | cons w ws ih =>
    rw [findTriggerElem] at h
    by_cases hc : triggerWords.contains (jsToLower w) = true
    · rw [if_pos hc] at h
      injection h with h1
      refine ⟨0, ?_, ?_⟩
      · rw [firstTriggerIdx, if_pos hc]
      · rw [← h1, jsIndexOf, if_pos rfl]
        rfl
    · rw [if_neg hc] at h
      obtain ⟨k, hk1, hk2⟩ := ih h
      have hne : ¬ (w = el) := by
        intro hEq
        exact hc (hEq ▸ findTriggerElem_mem h)
      refine ⟨k + 1, ?_, ?_⟩
      · rw [firstTriggerIdx, if_neg hc, hk1]
        rfl
      · rw [jsIndexOf, if_neg hne]
        simp only [hk2]
        have : ((k : Int) = -1) = False := by
          simp only [eq_iff_iff, iff_false]
          omega
        simp only [this, if_false]
        push_cast
        ring

end DadBotMatrix

namespace DadBotMatrix

theorem handleEdit_ok_inv {s : DBState} {resp : ResponseEvent} {nm : String}
    {e : RoomEvent} {s1 : DBState} {r : ResponseEvent}
    (h : handleEdit s resp nm e = .ok (s1, r)) : records s1 = records s := by
  rw [handleEdit] at h
  cases hrel : e.relatesTo with
  | none => rw [hrel] at h; exact absurd h (by simp)
  | some tgt =>
    rw [hrel] at h
    dsimp only at h
    cases hget : getEventID s tgt with
    | error err => rw [hget] at h; exact absurd h (by simp)
    | ok pr =>
      obtain ⟨s2, v⟩ := pr
      rw [hget] at h
      dsimp only at h
      obtain ⟨hrec, hv⟩ := getEventID_ok_inv hget
      cases v with
      | none =>
        simp only [Except.ok.injEq, Prod.mk.injEq] at h
        rw [← h.1]; exact hrec
      | some rid =>
        dsimp only at h
        by_cases hrid : rid = ""
        · rw [if_pos hrid] at h
          simp only [Except.ok.injEq, Prod.mk.injEq] at h
          rw [← h.1]; exact hrec
        · rw [if_neg hrid] at h
          simp only [Except.ok.injEq, Prod.mk.injEq] at h
          rw [← h.1]; exact hrec

theorem buildResponse_ok_inv {s : DBState} {e : RoomEvent} {s1 : DBState}
    {r : ResponseEvent} (h : buildResponse s e = .ok (s1, r)) :
    records s1 = records s := by
  rw [buildResponse] at h
  dsimp only at h
  by_cases hlen : (getName e.body).length > 0
  · rw [if_pos hlen] at h
    cases hnc : e.newContent with
    | some nc => rw [hnc] at h; exact handleEdit_ok_inv h
    | none =>
      rw [hnc] at h
      simp only [Except.ok.injEq, Prod.mk.injEq] at h
      rw [← h.1]
  · rw [if_neg hlen] at h
    simp only [Except.ok.injEq, Prod.mk.injEq] at h
    rw [← h.1]

theorem respond_ok_inv {s : DBState} {e : RoomEvent} {sid : String}
    {s1 : DBState} {m : Option (ResponseEvent × String)}
    (h : respond s e sid = .ok (s1, m)) :
    records s1 = records s ∨
      (records s1 = records s ++ [(e.eventId, sid)] ∧
        (records s).any (fun p => p.1 == e.eventId) = false) := by
  rw [respond] at h
  cases hb : buildResponse s e with
  | error err => rw [hb] at h; exact absurd h (by simp)
  | ok pr =>
    obtain ⟨s2, resp⟩ := pr
    rw [hb] at h
    dsimp only at h
    have hrec2 := buildResponse_ok_inv hb
    by_cases hready : resp.ready = true
    · rw [if_pos hready] at h
      by_cases hsid : sid ≠ ""
      · rw [if_pos hsid] at h
        cases hadd : addEventID s2 e.eventId sid with
        | error err => rw [hadd] at h; exact absurd h (by simp)
        | ok s3 =>
          rw [hadd] at h
          obtain ⟨hs3, hfresh⟩ := addEventID_ok_inv hadd
          simp only [Except.ok.injEq, Prod.mk.injEq] at h
          right
          rw [← h.1, hs3]
          constructor
          · rw [← hrec2]; rfl
          · rw [← hrec2]; exact hfresh
      · rw [if_neg hsid] at h
        simp only [Except.ok.injEq, Prod.mk.injEq] at h
        left; rw [← h.1]; exact hrec2
    · rw [if_neg hready] at h
      simp only [Except.ok.injEq, Prod.mk.injEq] at h
      left; rw [← h.1]; exact hrec2

end DadBotMatrix

namespace DadBotMatrix

theorem respond_fresh_eq {s : DBState} {e : RoomEvent} {n sid : String}
    (hname : getName e.body = n) (hn : n ≠ "") (hnc : e.newContent = none)
    (wf : wfState s = true)
    (hid : (records s).any (fun p => p.1 == e.eventId) = false)
    (hsid : sid ≠ "") :
    respond s e sid = .ok (⟨true, some (records s ++ [(e.eventId, sid)])⟩,
      some (⟨"m.room.message", true,
        ⟨some "m.notice", some (dadMessage n), none, none⟩⟩, sid)) := by
  rw [respond, buildResponse]
  dsimp only
  rw [hname, hnc, if_pos (length_pos_of_ne_empty hn)]
  dsimp only [initialResponse]
  rw [if_pos rfl, if_pos hsid, addEventID_eq]
  rw [wf_not_blocked wf, hid]
  simp

theorem respond_empty_name {s : DBState} {e : RoomEvent} {sid : String}
    (hname : getName e.body = "") :
    respond s e sid = .ok (s, none) := by
  rw [respond, buildResponse]
  dsimp only
  rw [hname]
  dsimp only [initialResponse]
  rw [if_neg (by simp)]
  dsimp only
  rw [if_neg (by simp)]

theorem respond_edit_eq {s : DBState} {e : RoomEvent} {tgt r1 n sid : String}
    (hname : getName e.body = n) (hn : n ≠ "")
    (hnc : e.newContent.isSome = true) (hrel : e.relatesTo = some tgt)
    (wf : wfState s = true)
    (hfind : (records s).find? (fun p => p.1 == tgt) = some (tgt, r1))
    (hr1 : r1 ≠ "")
    (hid : (records s).any (fun p => p.1 == e.eventId) = false)
    (hsid : sid ≠ "") :
    respond s e sid = .ok (⟨true, some (records s ++ [(e.eventId, sid)])⟩,
      some (⟨"m.room.message", true,
        ⟨some "m.notice", some (" * " ++ dadMessage n),
         some ("m.notice", dadMessage n), some ("m.replace", r1)⟩⟩, sid)) := by
  obtain ⟨nc, hnc'⟩ := Option.isSome_iff_exists.mp hnc
  rw [respond, buildResponse]
  dsimp only
  rw [hname, hnc', if_pos (length_pos_of_ne_empty hn)]
  dsimp only
  rw [handleEdit, hrel]
  dsimp only
  rw [getEventID_eq, wf_not_blocked wf]
  rw [if_neg (by simp), hfind]
  dsimp only [Option.map, initialResponse]
  rw [if_neg hr1]
  dsimp only
  rw [if_pos rfl, if_pos hsid]
  have wf1 : wfState (⟨true, some (records s)⟩ : DBState) = true := by
    simp [wfState]
  have hid1 : (records (⟨true, some (records s)⟩ : DBState)).any
      (fun p => p.1 == e.eventId) = false := hid
  rw [addEventID_eq, wf_not_blocked wf1, hid1]
  simp [records]

theorem respond_untracked_edit {s : DBState} {e : RoomEvent} {tgt sid : String}
    (hname : getName e.body ≠ "")
    (hnc : e.newContent.isSome = true) (hrel : e.relatesTo = some tgt)
    (wf : wfState s = true)
    (hfind : (records s).find? (fun p => p.1 == tgt) = none) :
    respond s e sid = .ok (⟨true, some (records s)⟩, none) := by
  obtain ⟨nc, hnc'⟩ := Option.isSome_iff_exists.mp hnc
  rw [respond, buildResponse]
  dsimp only
  rw [hnc', if_pos (length_pos_of_ne_empty hname)]
  dsimp only
  rw [handleEdit, hrel]
  dsimp only
  rw [getEventID_eq, wf_not_blocked wf]
  rw [if_neg (by simp), hfind]
  dsimp only [Option.map, initialResponse]
  rw [if_neg (by simp)]

end DadBotMatrix

namespace DadBotMatrix

theorem not_mem_keys_of_any_false {l : List (String × String)} {e : String}
    (h : l.any (fun p => p.1 == e) = false) : e ∉ l.map Prod.fst := by
  simp only [List.any_eq_false, beq_iff_eq] at h
  intro hmem
  obtain ⟨p, hp, hfst⟩ := List.mem_map.mp hmem
  exact h p hp hfst

theorem nodup_snoc {α : Type} {l : List α} {a : α} (h : l.Nodup) (ha : a ∉ l) :
    (l ++ [a]).Nodup := by
  rw [List.nodup_append]
  exact ⟨h, List.nodup_singleton a, List.disjoint_singleton.mpr ha⟩

/-- Claim C9: every store operation (put, get, start, and a full
responder step) preserves the invariant that stored trigger ids are
pairwise distinct, and every record present before the operation is still
present, unchanged, afterwards (records are never updated or deleted). -/
theorem store_correlation_invariant (s : DBState) (op : StoreOp)
    (hInv : storeInv s) :
    storeInv (stepOp s op) ∧ ∀ p ∈ records s, p ∈ records (stepOp s op) := by
  have key : ∀ s1 : DBState,
      (records s1 = records s ∨
        (∃ a b, records s1 = records s ++ [(a, b)] ∧
          (records s).any (fun p => p.1 == a) = false)) →
      storeInv s1 ∧ ∀ p ∈ records s, p ∈ records s1 := by
    intro s1 hcase
    rcases hcase with heq | ⟨a, b, heq, hfresh⟩
    · constructor
      · rw [storeInv, heq]; exact hInv
      · intro p hp; rw [heq]; exact hp
    · constructor
      · rw [storeInv, heq, List.map_append]
        exact nodup_snoc hInv (not_mem_keys_of_any_false hfresh)
      · intro p hp
        rw [heq]
        exact List.mem_append_left _ hp
  cases op with
  | putOp a b =>
    cases hadd : addEventID s a b with
    | error err =>
      have hstep : stepOp s (.putOp a b) = s := by rw [stepOp, hadd]
      rw [hstep]; exact ⟨hInv, fun p hp => hp⟩
    | ok s1 =>
      have hstep : stepOp s (.putOp a b) = s1 := by rw [stepOp, hadd]
      rw [hstep]
      obtain ⟨hs1, hfresh⟩ := addEventID_ok_inv hadd
      refine key s1 (Or.inr ⟨a, b, ?_, hfresh⟩)
      rw [hs1]; rfl
  | getOp a =>
    cases hget : getEventID s a with
    | error err =>
      have hstep : stepOp s (.getOp a) = s := by rw [stepOp, hget]
      rw [hstep]; exact ⟨hInv, fun p hp => hp⟩
    | ok pr =>
      obtain ⟨s1, v⟩ := pr
      have hstep : stepOp s (.getOp a) = s1 := by rw [stepOp, hget]
      rw [hstep]
      exact key s1 (Or.inl (getEventID_ok_inv hget).1)
  | startOp =>
    have hstep : stepOp s .startOp = ⟨true, some (records s)⟩ := by
      rw [stepOp, startDB_eq]
    rw [hstep]
    exact key _ (Or.inl rfl)
  | respondOp e sid =>
    cases hre : respond s e sid with
    | error err =>
      have hstep : stepOp s (.respondOp e sid) = s := by rw [stepOp, hre]
      rw [hstep]; exact ⟨hInv, fun p hp => hp⟩
    | ok pr =>
      obtain ⟨s1, m⟩ := pr
      have hstep : stepOp s (.respondOp e sid) = s1 := by rw [stepOp, hre]
      rw [hstep]
      rcases respond_ok_inv hre with h | ⟨h1, h2⟩
      · exact key s1 (Or.inl h)
      · exact key s1 (Or.inr ⟨e.eventId, sid, h1, h2⟩)

theorem store_correlation_invariant_witness :
    storeInv ⟨true, some [("e1", "r1")]⟩ ∧
      (storeInv (stepOp ⟨true, some [("e1", "r1")]⟩ (.putOp "e2" "r2")) ∧
        ∀ p ∈ records ⟨true, some [("e1", "r1")]⟩,
          p ∈ records (stepOp ⟨true, some [("e1", "r1")]⟩ (.putOp "e2" "r2"))) := by
  constructor
  · simp [storeInv, records]
  · exact store_correlation_invariant ⟨true, some [("e1", "r1")]⟩
      (.putOp "e2" "r2") (by simp [storeInv, records])

end DadBotMatrix

namespace DadBotMatrix

/-- Claim C1 counterexample: on the body consisting of im, two consecutive
spaces and bob, the code returns the empty string (the token after the
trigger is the empty token, which the truthiness guard treats as absent),
while the algorithm exactly as the claim words it returns the token after
that empty token appended after a single space.  The claim as stated is
therefore false. -/
theorem extract_name_counterexample :
    getName "im  bob" = "" ∧ getNameSpec "im  bob" = " bob" ∧
      getName "im  bob" ≠ getNameSpec "im  bob" := by decide

/-- Claim C1 (amended): getName follows the claimed extraction algorithm
amended only where the counterexample forces it: tokens at position i and
i plus one are used only when they are non-empty, so a trigger followed by
an empty token (consecutive spaces) also yields the empty result. -/
theorem extract_name_amended (body : String) :
    getName body = getNameAmendedSpec body := by
  rw [getName, getNameAmendedSpec]
  cases hf : findTriggerElem (jsSplit body) with
  | none => rw [findTriggerElem_none hf]
  | some el =>
    obtain ⟨k, hk1, hk2⟩ := jsIndexOf_firstTrigger hf
    rw [hk1]
    simp only [hk2]
    have hnz : ¬ ((k : Int) + 1 = 0) := by omega
    rw [if_neg hnz]
    have ht1 : ((k : Int) + 1).toNat = k + 1 := by omega
    have ht2 : ((k : Int) + 1 + 1).toNat = k + 2 := by omega
    have hget1 : jsGetElem (jsSplit body) ((k : Int) + 1)
        = (jsSplit body).get? (k + 1) := by
      rw [jsGetElem, if_pos (by omega), ht1]
    have hget2 : jsGetElem (jsSplit body) ((k : Int) + 1 + 1)
        = (jsSplit body).get? (k + 2) := by
      rw [jsGetElem, if_pos (by omega), ht2]
    rw [hget1, hget2]


/-- Claim C2 counterexample: with the store holding the single record
(e1, r1), processing an edit event (own id e2, edit target e1, extracted
name bob, sent edit response id r2) produces the claimed edit response but
also writes the new record (e2, r2) to the store, so the no-new-record
part of the claim is false. -/
theorem respond_edit_counterexample :
    respond ⟨true, some [("e1", "r1")]⟩
        ⟨"alice", "im bob", "m.text", some "x", some "e1", "e2", ⟨1, 0, 0⟩⟩ "r2"
      = .ok (⟨true, some [("e1", "r1"), ("e2", "r2")]⟩,
          some (⟨"m.room.message", true,
            ⟨some "m.notice", some (" * " ++ dadMessage "bob"),
             some ("m.notice", dadMessage "bob"), some ("m.replace", "r1")⟩⟩, "r2")) ∧
      records ⟨true, some [("e1", "r1"), ("e2", "r2")]⟩
        ≠ records ⟨true, some [("e1", "r1")]⟩ := by decide

/-- Claim C2 (amended): for every prior correlation record (tgt, r1) in
the store, an inbound edit event targeting tgt whose extracted name is bob
produces an edit response whose relation is m.replace onto r1, whose
replacement content body is the full dad message for bob, and whose
fallback body is that message prefixed by space-asterisk-space; and
processing the edit writes exactly one new record, keyed by the edit
events own id and mapped to the sent edit responses id (the original
record is untouched). -/
theorem respond_edit_flow (s : DBState) (e : RoomEvent) (tgt r1 sid : String)
    (hname : getName e.body = "bob") (hnc : e.newContent.isSome = true)
    (hrel : e.relatesTo = some tgt) (wf : wfState s = true)
    (hfind : (records s).find? (fun p => p.1 == tgt) = some (tgt, r1))
    (hr1 : r1 ≠ "")
    (hid : (records s).any (fun p => p.1 == e.eventId) = false)
    (hsid : sid ≠ "") :
    respond s e sid = .ok (⟨true, some (records s ++ [(e.eventId, sid)])⟩,
      some (⟨"m.room.message", true,
        ⟨some "m.notice", some (" * " ++ dadMessage "bob"),
         some ("m.notice", dadMessage "bob"), some ("m.replace", r1)⟩⟩, sid)) :=
  respond_edit_eq hname (by decide) hnc hrel wf hfind hr1 hid hsid

/-- Closed witness for the amended claim C2 at a concrete store and edit
event. -/
theorem respond_edit_flow_witness :
    respond ⟨true, some [("e1", "r1")]⟩
        ⟨"alice", "im bob", "m.text", some "x", some "e1", "e2", ⟨1, 0, 0⟩⟩ "r2"
      = .ok (⟨true, some [("e1", "r1"), ("e2", "r2")]⟩,
          some (⟨"m.room.message", true,
            ⟨some "m.notice", some (" * " ++ dadMessage "bob"),
             some ("m.notice", dadMessage "bob"), some ("m.replace", "r1")⟩⟩, "r2")) := by
  have h := respond_edit_flow ⟨true, some [("e1", "r1")]⟩
      ⟨"alice", "im bob", "m.text", some "x", some "e1", "e2", ⟨1, 0, 0⟩⟩
      "e1" "r1" "r2" (by decide) (by decide) rfl (by decide) (by decide)
      (by decide) (by decide) (by decide)
  exact h

/-- Claim C3: for every trigger-word token w in the set im, i-apostrophe-m,
imma (any letter case) and every non-empty space-free name token n, a fresh
non-edit message with body hello-space-w-space-n yields a ready response of
type m.room.message whose content has kind m.notice and body equal to the
dad message for n, and after the send succeeds exactly one correlation
record (the inbound event id mapped to the sent message id) is appended to
the store. -/
theorem respond_fresh_trigger (s : DBState) (e : RoomEvent) (w n sid : String)
    (hw : jsToLower w = "im" ∨ jsToLower w = iApM ∨ jsToLower w = "imma")
    (hwsp : w.data.contains ' ' = false) (hn : n ≠ "")
    (hnsp : n.data.contains ' ' = false)
    (hbody : e.body = "hello " ++ w ++ " " ++ n)
    (hnc : e.newContent = none) (wf : wfState s = true)
    (hid : (records s).any (fun p => p.1 == e.eventId) = false)
    (hsid : sid ≠ "") :
    respond s e sid = .ok (⟨true, some (records s ++ [(e.eventId, sid)])⟩,
      some (⟨"m.room.message", true,
        ⟨some "m.notice", some (dadMessage n), none, none⟩⟩, sid)) :=
  respond_fresh_eq (by rw [hbody]; exact getName_pattern hw hwsp hn hnsp)
    hn hnc wf hid hsid

/-- Closed witness for claim C3 at a concrete fresh store and message. -/
theorem respond_fresh_trigger_witness :
    respond ⟨false, none⟩
        ⟨"alice", "hello Im bob", "m.text", none, none, "e9", ⟨1, 0, 0⟩⟩ "r9"
      = .ok (⟨true, some [("e9", "r9")]⟩,
          some (⟨"m.room.message", true,
            ⟨some "m.notice", some (dadMessage "bob"), none, none⟩⟩, "r9")) := by
  have h := respond_fresh_trigger ⟨false, none⟩
      ⟨"alice", "hello Im bob", "m.text", none, none, "e9", ⟨1, 0, 0⟩⟩
      "Im" "bob" "r9" (Or.inl (by decide)) (by decide) (by decide) (by decide)
      (by decide) rfl (by decide) (by decide) (by decide)
  exact h

/-- Claim C4 counterexample: an event satisfying all four claimed
conditions (non-empty body with a trigger word, kind m.text, foreign
sender) but whose timestamp reads minute one while now reads minute zero
is rejected by the code, so validation is not characterized by the four
conditions alone. -/
theorem validate_counterexample :
    isValidMessage ⟨1, 0, 0⟩ "bot"
        ⟨"alice", "im bob", "m.text", none, none, "e1", ⟨1, 0, 1⟩⟩ = false ∧
      specValidMessage "bot"
        ⟨"alice", "im bob", "m.text", none, none, "e1", ⟨1, 0, 1⟩⟩ = true := by decide

/-- Claim C4 (amended): validation returns true exactly when the four
claimed conditions hold and additionally the recency window holds: the
events decoded day-of-month, hour and minute readings all equal those of
the processing time. -/
theorem validate_amended (now : WallClock) (userId : String) (e : RoomEvent) :
    isValidMessage now userId e
      = (specValidMessage userId e && isRelevant now e.originTs) := by
  by_cases hb : e.body = ""
  · simp [isValidMessage, specValidMessage, hb]
  · simp [isValidMessage, specValidMessage, hb, Bool.and_assoc]

/-- Claim C5: on every well-formed store holding no record for e, put of
(e, r) succeeds and a following get of e returns r; and get of any id with
no stored record resolves with the absent sentinel (none) rather than an
error. -/
theorem store_roundtrip (s : DBState) (e r x : String) (wf : wfState s = true)
    (hfresh : (records s).any (fun p => p.1 == e) = false) :
    (∃ s1 s2, addEventID s e r = .ok s1 ∧ getEventID s1 e = .ok (s2, some r)) ∧
      ((records s).any (fun p => p.1 == x) = false →
        ∃ s1, getEventID s x = .ok (s1, none)) := by
  have hfindnone : (records s).find? (fun p => p.1 == e) = none := by
    rw [List.find?_eq_none]
    simp only [List.any_eq_false] at hfresh
    exact hfresh
  constructor
  · have h1 : addEventID s e r = .ok ⟨true, some (records s ++ [(e, r)])⟩ := by
      rw [addEventID_eq, wf_not_blocked wf, hfresh]
      simp
    have h2 : getEventID (⟨true, some (records s ++ [(e, r)])⟩ : DBState) e
        = .ok (⟨true, some (records s ++ [(e, r)])⟩, some r) := by
      rw [getEventID_eq]
      have hrec : records (⟨true, some (records s ++ [(e, r)])⟩ : DBState)
          = records s ++ [(e, r)] := rfl
      rw [hrec, List.find?_append, hfindnone]
      simp [List.find?]
    exact ⟨_, _, h1, h2⟩
  · intro hx
    have hfx : (records s).find? (fun p => p.1 == x) = none := by
      rw [List.find?_eq_none]
      simp only [List.any_eq_false] at hx
      exact hx
    refine ⟨⟨true, some (records s)⟩, ?_⟩
    rw [getEventID_eq, wf_not_blocked wf, hfx]
    simp

/-- Closed witness for claim C5 on the fresh uninitialized store. -/
theorem store_roundtrip_witness :
    (∃ s1 s2, addEventID ⟨false, none⟩ "e1" "r1" = .ok s1 ∧
        getEventID s1 "e1" = .ok (s2, some "r1")) ∧
      ((records (⟨false, none⟩ : DBState)).any (fun p => p.1 == "zz") = false →
        ∃ s1, getEventID ⟨false, none⟩ "zz" = .ok (s1, none)) :=
  store_roundtrip ⟨false, none⟩ "e1" "r1" "zz" (by decide) (by decide)

/-- Claim C6: on every well-formed store already holding a record keyed
by e, a second put keyed by e fails with the constraint-violation storage
error (the eventID column is the primary key), rather than succeeding or
overwriting. -/
theorem store_duplicate_put (s : DBState) (e rp : String) (wf : wfState s = true)
    (hdup : (records s).any (fun p => p.1 == e) = true) :
    addEventID s e rp = .error .constraintViolation := by
  rw [addEventID_eq, wf_not_blocked wf, hdup]
  simp

/-- Closed witness for claim C6 at a concrete one-record store. -/
theorem store_duplicate_put_witness :
    addEventID ⟨true, some [("e1", "r1")]⟩ "e1" "r2"
      = .error .constraintViolation :=
  store_duplicate_put ⟨true, some [("e1", "r1")]⟩ "e1" "r2" (by decide) (by decide)

/-- Claim C7: put and get invoked on a store whose start has not run
behave exactly as on the started store (the lazy-initialization prologue
runs start first, creating the backing table when absent), and on the
fresh store with no table both operations proceed successfully instead of
failing. -/
theorem store_lazy_initialization (t : Option (List (String × String)))
    (e r : String) :
    startDB ⟨false, t⟩ = .ok ⟨true, some (records ⟨false, t⟩)⟩ ∧
      addEventID ⟨false, t⟩ e r = addEventID ⟨true, some (records ⟨false, t⟩)⟩ e r ∧
      getEventID ⟨false, t⟩ e = getEventID ⟨true, some (records ⟨false, t⟩)⟩ e ∧
      addEventID ⟨false, none⟩ e r = .ok ⟨true, some [(e, r)]⟩ ∧
      getEventID ⟨false, none⟩ e = .ok (⟨true, some []⟩, none) := by
  refine ⟨startDB_eq _, ?_, ?_, ?_, ?_⟩
  · rw [addEventID_eq, addEventID_eq]; simp [records]
  · rw [getEventID_eq, getEventID_eq]; simp [records]
  · rw [addEventID_eq]; simp [records]
  · rw [getEventID_eq]; simp [records]

/-- Claim C8: on every drop path, namely an event whose extracted name
is empty or an edit event whose target id has no correlation record in
the store, the responder sends no message and the stored records are
unchanged. -/
theorem respond_drop_paths (s : DBState) (e : RoomEvent) (tgt sid : String)
    (wf : wfState s = true)
    (h : getName e.body = "" ∨
      (e.newContent.isSome = true ∧ e.relatesTo = some tgt ∧
        (records s).find? (fun p => p.1 == tgt) = none)) :
    ∃ s1, respond s e sid = .ok (s1, none) ∧ records s1 = records s := by
  rcases h with hname | ⟨hnc, hrel, hfind⟩
  · exact ⟨s, respond_empty_name hname, rfl⟩
  · by_cases hname : getName e.body = ""
    · exact ⟨s, respond_empty_name hname, rfl⟩
    · exact ⟨⟨true, some (records s)⟩,
        respond_untracked_edit hname hnc hrel wf hfind, rfl⟩

/-- Closed witness for claim C8 at a concrete empty-name event. -/
theorem respond_drop_paths_witness :
    ∃ s1, respond ⟨true, some []⟩
        ⟨"alice", "im", "m.text", none, none, "e1", ⟨1, 0, 0⟩⟩ "r1"
      = .ok (s1, none) ∧ records s1 = records (⟨true, some []⟩ : DBState) :=
  respond_drop_paths ⟨true, some []⟩
    ⟨"alice", "im", "m.text", none, none, "e1", ⟨1, 0, 0⟩⟩ "zz" "r1"
    (by decide) (Or.inl (by decide))

end DadBotMatrix
